import Mathlib

/-!
Verification development for the `tons` translation backend core.

The development shallowly embeds the engine layer of the repository:
the request/response data model, the process-agent engine
(`TerminalEngine`), the embedded inference engine (`Yzma`), and the
remote model-server engine (`Ollama`).  Stateful Go code (goroutines
writing to a channel) is modelled by functions that return the complete
list of `Response` values the producer sends before it returns; since
every producer closes its channel with a single deferred `close`,
returning from the modelled function corresponds to the unique close of
the channel.  Interactions with the outside world (the spawned process,
the native model, the HTTP server) are modelled by explicit input
parameters describing the backend's observable behaviour, and by an
`Effect` list recording which backend facilities a call engaged.
-/

namespace Tons

/-- `Response` from the engine package: a translation payload with a
`done` flag and an error string (empty when no error). -/
structure Response where
  text : String
  done : Bool
  error : String
deriving DecidableEq, Repr

/-- `Request` from the engine package. -/
structure Request where
  text : String
  sourceLang : String
  targetLang : String
  prompt : String
  systemPrompt : String
deriving DecidableEq, Repr

/-- `ErrorResponse` constructor: `Response{Error: err, Done: true}`. -/
def ErrorResponse (err : String) : Response :=
  { text := "", done := true, error := err }

/-- `ErrorResponsef` constructor; the Go original formats the message
with `fmt.Sprintf`, here the already-formatted message is passed in. -/
def ErrorResponsef (msg : String) : Response :=
  { text := "", done := true, error := msg }

/-- Backend facilities a call can engage; used to express the
"without invoking the backend" fast-path properties. -/
inductive Effect where
  | loadModel
  | acquireGate
  | decode
  | spawnProcess
  | httpRequest
deriving DecidableEq, Repr

/-- A response is terminal when its `done` flag is set or it carries a
non-empty error (spec: an error is terminal regardless of `done`). -/
def isTerminal (r : Response) : Bool :=
  r.done || r.error != ""

/-- A trace is well-terminated when any terminal response in it is the
last response: nothing is ever sent after `done = true` or an error. -/
def okTrace : List Response → Bool
  | [] => true
  | r :: rest => (!(isTerminal r) || rest.isEmpty) && okTrace rest

/-- Every response of the trace carrying a non-empty error also has
`done = true`. -/
def errImpliesDone (rs : List Response) : Prop :=
  ∀ r ∈ rs, r.error ≠ "" → r.done = true

/-- Texts of the non-terminal responses of a trace, in order. -/
def nonTerminalTexts (rs : List Response) : List String :=
  (rs.filter (fun r => !(isTerminal r))).map Response.text

/-- Concatenation of a list of strings. -/
def joinAll : List String → String
  | [] => ""
  | s :: rest => s ++ joinAll rest

/-- The whitespace predicate of Go's `unicode.IsSpace` restricted to
the Latin-1 range (tab, newline, vertical tab, form feed, carriage
return, space, next line, no-break space). -/
def goIsSpace (c : Char) : Bool :=
  c.val == 9 || c.val == 10 || c.val == 11 || c.val == 12 ||
  c.val == 13 || c.val == 32 || c.val == 0x85 || c.val == 0xA0

/-- Go's `strings.TrimSpace`: drop whitespace from both ends. -/
def trimSpace (s : String) : String :=
  String.mk (((s.data.dropWhile goIsSpace).reverse.dropWhile goIsSpace).reverse)

/-! ### JSON embedding

`streamClaudeCodeOutput` feeds each scanned line to `json.Unmarshal`.
The fragment of `encoding/json` modelled here covers the values that
the claude-code event records use: objects with string keys whose
values are strings or nested objects.  Inputs outside this fragment
(and all syntactically invalid inputs) decode to `none`, which the
streaming loop skips, exactly as the Go loop `continue`s on an
`Unmarshal` error. -/

/-- JSON values restricted to strings and objects. -/
inductive JVal where
  | jstr (s : String)
  | jobj (fields : List (String × JVal))

/-- JSON insignificant whitespace. -/
def jsonWs (c : Char) : Bool :=
  c == ' ' || c == '\t' || c == '\n' || c == '\r'

/-- Translation of a character following a backslash in a JSON string
literal (unicode escapes are not modelled; the event records use none). -/
def jsonEscChar (c : Char) : Char :=
  if c = 'n' then '\n'
  else if c = 't' then '\t'
  else if c = 'r' then '\r'
  else c

/-- Scan a JSON string body after its opening quote; returns the
decoded characters and the input remaining after the closing quote. -/
def jStringAux : List Char → Option (List Char × List Char)
  | [] => none
  | '"' :: rest => some ([], rest)
  | '\\' :: e :: rest =>
    (jStringAux rest).map (fun p => (jsonEscChar e :: p.1, p.2))
  | '\\' :: [] => none
  | c :: rest =>
    (jStringAux rest).map (fun p => (c :: p.1, p.2))

mutual

/-- Scan one JSON value (fuel-bounded recursion). -/
def jValAux : Nat → List Char → Option (JVal × List Char)
  | 0, _ => none
  | fuel+1, s =>
    match s.dropWhile jsonWs with
    | '"' :: rest =>
      match jStringAux rest with
      | some (cs, r) => some (JVal.jstr (String.mk cs), r)
      | none => none
    | '\x7b' :: rest =>
      match rest.dropWhile jsonWs with
      | '\x7d' :: r2 => some (JVal.jobj [], r2)
      | _ =>
        match jFieldsAux fuel rest with
        | some (fs, r) => some (JVal.jobj fs, r)
        | none => none
    | _ => none

/-- Scan the members of a JSON object after its opening brace. -/
def jFieldsAux : Nat → List Char → Option (List (String × JVal) × List Char)
  | 0, _ => none
  | fuel+1, s =>
    match s.dropWhile jsonWs with
    | '"' :: rest =>
      match jStringAux rest with
      | some (key, r1) =>
        match r1.dropWhile jsonWs with
        | ':' :: r2 =>
          match jValAux fuel r2 with
          | some (v, r3) =>
            match r3.dropWhile jsonWs with
            | ',' :: r4 =>
              match jFieldsAux fuel r4 with
              | some (fs, r5) => some ((String.mk key, v) :: fs, r5)
              | none => none
            | '\x7d' :: r4 => some ([(String.mk key, v)], r4)
            | _ => none
          | none => none
        | _ => none
      | none => none
    | _ => none

end

/-- Decode a whole input as one JSON value (`json.Unmarshal` accepts
only a single value followed by whitespace). -/
def parseJson (s : String) : Option JVal :=
  match jValAux (s.length + 1) s.data with
  | some (v, rest) => if rest.dropWhile jsonWs = [] then some v else none
  | none => none

/-! ### The claude-code event record (`claudeCodeEvent`) -/

/-- The `delta` sub-record of a claude-code stream event. -/
structure ClaudeDelta where
  type : String
  text : String
deriving DecidableEq, Repr

/-- The `event` sub-record of a claude-code stream event. -/
structure ClaudeInner where
  type : String
  delta : Option ClaudeDelta
deriving DecidableEq, Repr

/-- `claudeCodeEvent`: the JSON structure of claude-code stream output. -/
structure ClaudeCodeEvent where
  type : String
  subtype : String
  event : Option ClaudeInner
  result : String
deriving DecidableEq, Repr

/-- Field lookup with Go's duplicate-key behaviour (the last
occurrence of a key wins). -/
def lookupField (fields : List (String × JVal)) (key : String) : Option JVal :=
  fields.reverse.lookup key

/-- Decode a string-typed struct field: absent fields keep the zero
value `""`, a value of the wrong type is an unmarshal error. -/
def getStrField (fields : List (String × JVal)) (key : String) : Option String :=
  match lookupField fields key with
  | none => some ""
  | some (JVal.jstr s) => some s
  | some _ => none

/-- Decode the `delta` sub-record. -/
def decodeDelta : JVal → Option ClaudeDelta
  | JVal.jobj fs => do
    let t ← getStrField fs "type"
    let x ← getStrField fs "text"
    pure { type := t, text := x }
  | _ => none

/-- Decode the `event` sub-record. -/
def decodeInner : JVal → Option ClaudeInner
  | JVal.jobj fs => do
    let t ← getStrField fs "type"
    let d ← match lookupField fs "delta" with
      | none => pure Option.none
      | some v => (decodeDelta v).map Option.some
    pure { type := t, delta := d }
  | _ => none

/-- Decode a `claudeCodeEvent` from a JSON value. -/
def decodeClaudeEvent : JVal → Option ClaudeCodeEvent
  | JVal.jobj fs => do
    let t ← getStrField fs "type"
    let st ← getStrField fs "subtype"
    let ev ← match lookupField fs "event" with
      | none => pure Option.none
      | some v => (decodeInner v).map Option.some
    let res ← getStrField fs "result"
    pure { type := t, subtype := st, event := ev, result := res }
  | _ => none

/-- `json.Unmarshal([]byte(line), &event)` for one scanned line. -/
def decodeClaudeLine (line : String) : Option ClaudeCodeEvent :=
  (parseJson line).bind decodeClaudeEvent

/-! ### Process-agent engine (`TerminalEngine`, engine/terminal.go)

The streaming worker is modelled over the observable behaviour of the
spawned process: the chunk sequence its stdout delivers (raw strategy),
the line sequence the scanner produces (structured strategy), and how
the exchange ends (end of stream, read error, or context
cancellation/deadline).  Cancellation at an arbitrary point is covered
by instantiating the chunk/line list with the prefix delivered before
the cancellation. -/

/-- The fields of `TerminalEngine` relevant to the embedding. -/
structure TerminalCfg where
  name : String
  command : String
  args : List String
deriving DecidableEq, Repr

/-- Observable outcome of `cmd.Output()` in blocking mode: captured
stdout, the error (if any), and whether the request context had
exceeded its deadline when the error was inspected. -/
structure ProcOutcome where
  output : String
  err : Option String
  deadlineExceeded : Bool
deriving DecidableEq, Repr

/-- How the raw-strategy read loop ends. -/
inductive RawEnding where
  | eof
  | readErr (e : String)
  | cancelled
deriving DecidableEq, Repr

/-- How the structured-strategy line loop ends once the listed lines
are consumed.  `exhausted` models the scanner finishing without a
`result` event: the loop then keeps selecting until the request
context's deadline (always installed by `TranslateStream`) fires. -/
inductive LineEnding where
  | exhausted
  | readErr (e : String)
  | cancelled
deriving DecidableEq, Repr

/-- Observable behaviour of one streaming invocation's process. -/
inductive ProcStream where
  | pipeFail (e : String)
  | startFail (e : String)
  | run (chunks : List String) (rawEnding : RawEnding)
        (lines : List String) (lineEnding : LineEnding)

/-- What the structured loop does with one scanned line: skip it,
append a text delta, or finish on a `result` event.  This is the
`json.Unmarshal` + `switch event.Type` dispatch of
`streamClaudeCodeOutput`: a failed unmarshal is skipped; a
`stream_event` whose nested event is a `content_block_delta` holding a
non-empty `text_delta` contributes its text; a `result` event ends the
stream; everything else is skipped. -/
inductive ClaudeAction where
  | skip
  | delta (t : String)
  | result
deriving DecidableEq, Repr

/-- Classify one scanned line, mirroring the dispatch in
`streamClaudeCodeOutput`. -/
def claudeAction (line : String) : ClaudeAction :=
  match decodeClaudeLine line with
  | none => ClaudeAction.skip
  | some ev =>
    if ev.type = "stream_event" then
      match ev.event with
      | some inner =>
        if inner.type = "content_block_delta" then
          match inner.delta with
          | some d =>
            if d.type = "text_delta" ∧ d.text ≠ "" then ClaudeAction.delta d.text
            else ClaudeAction.skip
          | none => ClaudeAction.skip
        else ClaudeAction.skip
      | none => ClaudeAction.skip
    else if ev.type = "result" then ClaudeAction.result
    else ClaudeAction.skip

/-- Responses emitted after the structured loop runs out of lines:
a read error yields a read-error response; otherwise the context
deadline eventually fires and yields the timeout response (after
`gracefulShutdown`). -/
def endResponses : LineEnding → List Response
  | LineEnding.readErr e => [ErrorResponsef ("read error: " ++ e)]
  | LineEnding.exhausted => [ErrorResponse "translation timed out"]
  | LineEnding.cancelled => [ErrorResponse "translation timed out"]

/-- The response sequence sent by `streamClaudeCodeOutput`: the running
accumulator `acc` grows by each text delta and the cumulative text is
emitted as a non-terminal response; a `result` event emits the terminal
response and stops without reading further lines. -/
def streamClaudeCodeOutput (acc : String) : List String → LineEnding → List Response
  | [], ending => endResponses ending
  | line :: rest, ending =>
    match claudeAction line with
    | ClaudeAction.skip => streamClaudeCodeOutput acc rest ending
    | ClaudeAction.delta t =>
      { text := acc ++ t, done := false, error := "" } ::
        streamClaudeCodeOutput (acc ++ t) rest ending
    | ClaudeAction.result => [{ text := "", done := true, error := "" }]

/-- The response sequence sent by `streamRawOutput`: each chunk read
from the pipe is a non-terminal response; end of stream yields the
terminal done response after the process is reaped, a read error or the
context deadline yields a terminal error response. -/
def streamRawOutput (chunks : List String) (ending : RawEnding) : List Response :=
  chunks.map (fun d => { text := d, done := false, error := "" }) ++
    match ending with
    | RawEnding.eof => [{ text := "", done := true, error := "" }]
    | RawEnding.readErr e => [ErrorResponsef ("read error: " ++ e)]
    | RawEnding.cancelled => [ErrorResponse "translation timed out"]

/-- `TerminalEngine.Translate`: empty text is answered without spawning
anything; otherwise the process result is inspected — a deadline
excess is reported as a timeout error, any other failure as a terminal
agent error, and success returns the trimmed stdout.  The Go function
returns the pair `(Response, error)`; the zero `Response` accompanies a
non-nil error. -/
def terminalTranslate (e : TerminalCfg) (proc : ProcOutcome) (req : Request) :
    List Effect × Response × Option String :=
  if req.text = "" then ([], { text := "", done := true, error := "" }, none)
  else
    match proc.err with
    | some er =>
      if proc.deadlineExceeded then
        ([Effect.spawnProcess], { text := "", done := false, error := "" },
          some "translation timed out")
      else
        ([Effect.spawnProcess], { text := "", done := false, error := "" },
          some ("terminal agent error: " ++ er))
    | none =>
      ([Effect.spawnProcess],
        { text := trimSpace proc.output, done := true, error := "" }, none)

/-- `TerminalEngine.TranslateStream`: the goroutine's emissions, in
order, for a given process behaviour.  The strategy is chosen by the
engine's name: the claude-code engine decodes structured events, every
other engine relays raw chunks. -/
def terminalTranslateStream (e : TerminalCfg) (req : Request) (ps : ProcStream) :
    List Effect × List Response :=
  if req.text = "" then ([], [{ text := "", done := true, error := "" }])
  else
    match ps with
    | ProcStream.pipeFail er => ([], [ErrorResponsef ("failed to create pipe: " ++ er)])
    | ProcStream.startFail er => ([], [ErrorResponsef ("failed to start command: " ++ er)])
    | ProcStream.run chunks re lines le =>
      ([Effect.spawnProcess],
        if e.name = "claude-code" then streamClaudeCodeOutput "" lines le
        else streamRawOutput chunks re)

/-- The text deltas the structured strategy extracts from a line list,
in order, stopping at the first `result` event. -/
def deltaTexts : List String → List String
  | [] => []
  | line :: rest =>
    match claudeAction line with
    | ClaudeAction.skip => deltaTexts rest
    | ClaudeAction.delta t => t :: deltaTexts rest
    | ClaudeAction.result => []

/-- Cumulative sums of a delta list over a starting accumulator. -/
def scanAppend (acc : String) : List String → List String
  | [] => []
  | d :: ds => (acc ++ d) :: scanAppend (acc ++ d) ds

/-! ### Embedded inference engine (`Yzma`, engine/yzma.go)

The native model, the capacity-one `inUse` channel and the decode loop
are abstracted by explicit parameters: whether the engine was already
initialized, the outcome of a fresh `Initialize`, the outcome of
`acquireModel` (`some e` when the context was cancelled while waiting),
the token pieces the decode loop delivered to the callback, and the
error `generateTokens` returned (if any). -/

/-- `Yzma.Translate`.  The empty-text check precedes initialization;
on a decode failure the accumulated partial text is returned as a
`done = true` response alongside the error when non-empty, and the zero
response otherwise. -/
def yzmaTranslate (initialized : Bool) (initErr : Option String)
    (acqErr : Option String) (pieces : List String) (genErr : Option String)
    (req : Request) : List Effect × Response × Option String :=
  if req.text = "" then ([], { text := "", done := true, error := "" }, none)
  else
    let initEff := if initialized then [] else [Effect.loadModel]
    match (if initialized then none else initErr) with
    | some e => (initEff, { text := "", done := false, error := "" },
        some ("yzma error: " ++ e))
    | none =>
      match acqErr with
      | some e => (initEff, { text := "", done := false, error := "" },
          some ("yzma error: failed to acquire model: " ++ e))
      | none =>
        let result := joinAll pieces
        let effs := initEff ++ [Effect.acquireGate, Effect.decode]
        match genErr with
        | some e =>
          if result ≠ "" then
            (effs, { text := result, done := true, error := "" },
              some ("yzma error: " ++ e))
          else
            (effs, { text := "", done := false, error := "" },
              some ("yzma error: " ++ e))
        | none => (effs, { text := result, done := true, error := "" }, none)

/-- `Yzma.TranslateStream`.  Initialization happens before the channel
is created and before the empty-text check; an initialization failure
is returned as a Go error with no channel (`Except.error`).  Inside the
goroutine each delivered piece is a non-terminal response, a decode
error yields a terminal error response, and otherwise the terminal done
response is sent. -/
def yzmaTranslateStream (initialized : Bool) (initErr : Option String)
    (acqErr : Option String) (pieces : List String) (genErr : Option String)
    (req : Request) : List Effect × Except String (List Response) :=
  let initEff := if initialized then [] else [Effect.loadModel]
  match (if initialized then none else initErr) with
  | some e => (initEff, Except.error ("yzma error: " ++ e))
  | none =>
    if req.text = "" then
      (initEff, Except.ok [{ text := "", done := true, error := "" }])
    else
      match acqErr with
      | some e =>
        (initEff, Except.ok [ErrorResponsef ("yzma error: failed to acquire model: " ++ e)])
      | none =>
        (initEff ++ [Effect.acquireGate, Effect.decode],
          Except.ok (pieces.map (fun p => { text := p, done := false, error := "" }) ++
            match genErr with
            | some e => [ErrorResponsef ("yzma error: " ++ e)]
            | none => [{ text := "", done := true, error := "" }]))

/-! ### Remote model-server engine (`Ollama`, engine/ollama.go)

The server's streamed chunks are the `{response, done}` records the
`Generate` callback receives; `genErr` is the error `Generate`
returned (after delivering `chunks`), with `deadlineExceeded` telling
whether the request deadline had passed. -/

/-- One streamed chunk of the model server's response. -/
structure OllamaChunk where
  response : String
  done : Bool
deriving DecidableEq, Repr

/-- `Ollama.Translate`: accumulate all chunk texts, trim, and return a
single done response; failures discard the accumulator and are
reported as a timeout or an ollama error. -/
def ollamaTranslate (chunks : List OllamaChunk) (genErr : Option String)
    (deadlineExceeded : Bool) (req : Request) :
    List Effect × Response × Option String :=
  if req.text = "" then ([], { text := "", done := true, error := "" }, none)
  else
    match genErr with
    | some e =>
      if deadlineExceeded then
        ([Effect.httpRequest], { text := "", done := false, error := "" },
          some "translation timed out")
      else
        ([Effect.httpRequest], { text := "", done := false, error := "" },
          some ("ollama error: " ++ e))
    | none =>
      ([Effect.httpRequest],
        { text := trimSpace (joinAll (chunks.map OllamaChunk.response)),
          done := true, error := "" }, none)

/-- `Ollama.TranslateStream`: every chunk is relayed with the server's
own `done` flag; a failure of `Generate` afterwards appends a timeout
or ollama error response; a clean end appends nothing. -/
def ollamaTranslateStream (chunks : List OllamaChunk) (genErr : Option String)
    (deadlineExceeded : Bool) (req : Request) : List Effect × List Response :=
  if req.text = "" then ([], [{ text := "", done := true, error := "" }])
  else
    ([Effect.httpRequest],
      chunks.map (fun c => { text := c.response, done := c.done, error := "" }) ++
        match genErr with
        | some e =>
          if deadlineExceeded then [ErrorResponse "translation timed out"]
          else [ErrorResponsef ("ollama error: " ++ e)]
        | none => [])

/-- A well-formed model-server stream: `done` is flagged only on the
last chunk, and when `Generate` ends in an error no chunk was flagged
`done` at all. -/
def OllamaWellFormed (chunks : List OllamaChunk) (genErr : Option String) : Prop :=
  (∀ c ∈ chunks.dropLast, c.done = false) ∧
  (genErr ≠ none → ∀ c ∈ chunks, c.done = false)

/-! ### The exclusive-use gate of the embedded engine

`Yzma.acquireModel` sends into the capacity-one channel `inUse`
(possible only while the channel is empty) or fails when the caller's
context is cancelled first; the returned release function receives from
the channel and is invoked (via `defer`) on every exit path of
`Translate` and `TranslateStream`.  The transition system below models
any number of concurrent calls: the boolean `gate` is the channel's
occupancy, and each call is `waiting` (before `acquireModel` returns),
`decoding` (inside `generateTokens`, between acquisition and the
deferred release), or `finished`. -/

/-- Phase of one concurrent `Translate`/`TranslateStream` call. -/
inductive CallPhase where
  | waiting
  | decoding
  | finished
deriving DecidableEq, Repr

/-- Global state of the embedded engine under `n` concurrent calls. -/
structure YzmaGateState (n : Nat) where
  gate : Bool
  phase : Fin n → CallPhase

/-- One step of the gate protocol:
`acquire` is `inUse <- struct{}{}` succeeding (only when the channel is
empty), `cancelAcquire` is the `ctx.Done()` arm of the select (the call
never decodes), and `release` is the deferred `func() { <-e.inUse }`
run when the call leaves its decode section. -/
inductive YzmaGateStep (n : Nat) : YzmaGateState n → YzmaGateState n → Prop
  | acquire (s : YzmaGateState n) (i : Fin n) :
      s.phase i = CallPhase.waiting → s.gate = false →
      YzmaGateStep n s ⟨true, Function.update s.phase i CallPhase.decoding⟩
  | cancelAcquire (s : YzmaGateState n) (i : Fin n) :
      s.phase i = CallPhase.waiting →
      YzmaGateStep n s ⟨s.gate, Function.update s.phase i CallPhase.finished⟩
  | release (s : YzmaGateState n) (i : Fin n) :
      s.phase i = CallPhase.decoding →
      YzmaGateStep n s ⟨false, Function.update s.phase i CallPhase.finished⟩

/-- States reachable from the initial state (channel empty, every call
about to request the gate). -/
inductive YzmaGateReach (n : Nat) : YzmaGateState n → Prop
  | init (p0 : Fin n → CallPhase) (h : ∀ i, p0 i = CallPhase.waiting) :
      YzmaGateReach n ⟨false, p0⟩
  | step (s t : YzmaGateState n) :
      YzmaGateReach n s → YzmaGateStep n s t → YzmaGateReach n t

/-- The gate invariant: a decoding call implies an occupied gate, and
at most one call is decoding. -/
def YzmaGateInv (n : Nat) (s : YzmaGateState n) : Prop :=
  (∀ i, s.phase i = CallPhase.decoding → s.gate = true) ∧
  (∀ i j, s.phase i = CallPhase.decoding → s.phase j = CallPhase.decoding → i = j)

/-! ### Argument construction of the process agent (`buildArgs`)

Go slices alias a backing array, so the frame property "the configured
base argument vector is unchanged" is about heap mutation: `append` on
a slice with spare capacity writes into the shared backing array.  The
heap of string arrays is modelled explicitly; a slice is an array index
plus a length (slices in play start at offset zero, and capacity is the
backing array's length). -/

/-- A heap of string arrays, addressed by allocation order. -/
abbrev ArgHeap := List (List String)

/-- A slice value: backing-array index and length. -/
structure SliceRef where
  arr : Nat
  len : Nat
deriving DecidableEq, Repr

/-- The backing array of an index (out-of-range reads give `[]`). -/
def heapArr (h : ArgHeap) (i : Nat) : List String :=
  h.getD i []

/-- Capacity of a slice = length of its backing array. -/
def sliceCap (h : ArgHeap) (s : SliceRef) : Nat :=
  (heapArr h s.arr).length

/-- The elements a slice denotes. -/
def sliceView (h : ArgHeap) (s : SliceRef) : List String :=
  (heapArr h s.arr).take s.len

/-- Allocate a fresh array. -/
def heapAlloc (h : ArgHeap) (a : List String) : ArgHeap × Nat :=
  (h ++ [a], h.length)

/-- `make([]string, n)`: a fresh zero-filled array of length `n`. -/
def makeSlice (h : ArgHeap) (n : Nat) : ArgHeap × SliceRef :=
  let p := heapAlloc h (List.replicate n "")
  (p.1, ⟨p.2, n⟩)

/-- `copy(dst, src)`: writes `min dst.len src.len` elements into the
destination's backing array. -/
def copySlice (h : ArgHeap) (dst src : SliceRef) : ArgHeap :=
  let k := min dst.len src.len
  let d := heapArr h dst.arr
  h.set dst.arr ((sliceView h src).take k ++ d.drop k)

/-- `append(s, xs...)`: write in place when the backing array has room,
otherwise reallocate (the fresh capacity is modelled as exactly the new
length; only the reallocation decision matters for aliasing). -/
def appendSlice (h : ArgHeap) (s : SliceRef) (xs : List String) : ArgHeap × SliceRef :=
  if s.len + xs.length ≤ sliceCap h s then
    let a := heapArr h s.arr
    (h.set s.arr (a.take s.len ++ xs ++ a.drop (s.len + xs.length)),
      ⟨s.arr, s.len + xs.length⟩)
  else
    let p := heapAlloc h (sliceView h s ++ xs)
    (p.1, ⟨p.2, s.len + xs.length⟩)

/-- `TerminalEngine.buildArgs`: a request-local slice of the configured
base arguments is made and filled by `copy`; for the claude-code engine
with a non-empty system prompt the pair `--system-prompt`, prompt is
appended; finally the built prompt string is appended. -/
def buildArgs (h : ArgHeap) (name : String) (cfgArgs : SliceRef)
    (prompt systemPrompt : String) : ArgHeap × SliceRef :=
  let p1 := makeSlice h cfgArgs.len
  let h2 := copySlice p1.1 p1.2 cfgArgs
  let p2 :=
    if name = "claude-code" ∧ systemPrompt ≠ "" then
      appendSlice h2 p1.2 ["--system-prompt", systemPrompt]
    else (h2, p1.2)
  appendSlice p2.1 p2.2 [prompt]

/-- Trailing-whitespace-only trimming, written from the spec's words
("the captured standard output with trailing whitespace trimmed") for
comparison against the code's `strings.TrimSpace`. -/
def specTrimTrailing (s : String) : String :=
  String.mk (s.data.reverse.dropWhile goIsSpace).reverse

/-! ### Helper lemmas about traces -/

lemma isTerminal_text_chunk (t : String) :
    isTerminal { text := t, done := false, error := "" } = false := by
  simp [isTerminal]

lemma okTrace_singleton (r : Response) : okTrace [r] = true := by
  simp [okTrace]

lemma okTrace_cons_nonterminal (r : Response) (rest : List Response)
    (h : isTerminal r = false) : okTrace (r :: rest) = okTrace rest := by
  simp [okTrace, h]

lemma okTrace_append_nonterminal (l m : List Response)
    (hl : ∀ r ∈ l, isTerminal r = false) (hm : okTrace m = true) :
    okTrace (l ++ m) = true := by
  induction l with
  | nil => simpa using hm
  | cons a l ih =>
    have ha : isTerminal a = false := hl a (by simp)
    have ih2 : okTrace (l ++ m) = true := ih (fun r hr => hl r (by simp [hr]))
    simp [okTrace, ha, ih2]

lemma okTrace_raw (chunks : List String) (ending : RawEnding) :
    okTrace (streamRawOutput chunks ending) = true := by
  apply okTrace_append_nonterminal
  · intro r hr
    rcases List.mem_map.mp hr with ⟨d, _, rfl⟩
    exact isTerminal_text_chunk d
  · cases ending <;> simp [okTrace]

lemma okTrace_claude (lines : List String) :
    ∀ (acc : String) (ending : LineEnding),
      okTrace (streamClaudeCodeOutput acc lines ending) = true := by
  induction lines with
  | nil =>
    intro acc ending
    cases ending <;> simp [streamClaudeCodeOutput, endResponses, okTrace]
  | cons line rest ih =>
    intro acc ending
    cases h : claudeAction line with
    | skip => simpa [streamClaudeCodeOutput, h] using ih acc ending
    | delta t =>
      have ih2 := ih (acc ++ t) ending
      simp [streamClaudeCodeOutput, h, okTrace, isTerminal, ih2]
    | result => simp [streamClaudeCodeOutput, h, okTrace]

lemma okTrace_ollama_chunks (chunks : List OllamaChunk)
    (h : ∀ c ∈ chunks.dropLast, c.done = false) :
    okTrace (chunks.map
      (fun c => { text := c.response, done := c.done, error := "" })) = true := by
  induction chunks with
  | nil => simp [okTrace]
  | cons c cs ih =>
    cases cs with
    | nil => simp [okTrace]
    | cons c2 cs2 =>
      have hc : c.done = false := by
        apply h c
        simp [List.dropLast]
      have ih2 := ih (fun x hx => h x (by simp [List.dropLast] at hx ⊢; exact Or.inr hx))
      rw [List.map_cons, okTrace_cons_nonterminal _ _ (by simp [isTerminal, hc])]
      exact ih2

lemma errImpliesDone_append (l m : List Response)
    (hl : errImpliesDone l) (hm : errImpliesDone m) : errImpliesDone (l ++ m) := by
  intro r hr
  rcases List.mem_append.mp hr with h | h
  · exact hl r h
  · exact hm r h

lemma errImpliesDone_chunkmap (l : List String) :
    errImpliesDone (l.map (fun d => { text := d, done := false, error := "" })) := by
  intro r hr
  rcases List.mem_map.mp hr with ⟨d, _, rfl⟩
  intro h
  simp at h

lemma errImpliesDone_singleton_err (msg : String) :
    errImpliesDone [ErrorResponsef msg] := by
  intro r hr _
  simp at hr
  subst hr
  rfl

lemma errImpliesDone_done :
    errImpliesDone [{ text := "", done := true, error := "" }] := by
  intro r hr _
  simp at hr
  subst hr
  rfl

lemma errImpliesDone_raw (chunks : List String) (ending : RawEnding) :
    errImpliesDone (streamRawOutput chunks ending) := by
  apply errImpliesDone_append _ _ (errImpliesDone_chunkmap chunks)
  cases ending
  · exact errImpliesDone_done
  · exact errImpliesDone_singleton_err _
  · exact errImpliesDone_singleton_err _

lemma errImpliesDone_claude (lines : List String) :
    ∀ (acc : String) (ending : LineEnding),
      errImpliesDone (streamClaudeCodeOutput acc lines ending) := by
  induction lines with
  | nil =>
    intro acc ending
    cases ending <;>
      · intro r hr _
        simp [streamClaudeCodeOutput, endResponses] at hr
        subst hr
        rfl
  | cons line rest ih =>
    intro acc ending
    cases h : claudeAction line with
    | skip => simpa [streamClaudeCodeOutput, h] using ih acc ending
    | delta t =>
      intro r hr he
      simp only [streamClaudeCodeOutput, h, List.mem_cons] at hr
      rcases hr with rfl | hr
      · simp at he
      · exact ih (acc ++ t) ending r hr he
    | result =>
      intro r hr he
      simp [streamClaudeCodeOutput, h] at hr
      subst hr
      rfl

lemma errImpliesDone_ollama_chunks (chunks : List OllamaChunk) :
    errImpliesDone (chunks.map
      (fun c => { text := c.response, done := c.done, error := "" })) := by
  intro r hr
  rcases List.mem_map.mp hr with ⟨c, _, rfl⟩
  intro h
  simp at h

/-! ### Helper lemmas relating streamed text to the blocking result -/

lemma nonTerminalTexts_append (l m : List Response) :
    nonTerminalTexts (l ++ m) = nonTerminalTexts l ++ nonTerminalTexts m := by
  simp [nonTerminalTexts, List.filter_append]

lemma nonTerminalTexts_raw_eof (chunks : List String) :
    nonTerminalTexts (streamRawOutput chunks RawEnding.eof) = chunks := by
  induction chunks with
  | nil => simp [streamRawOutput, nonTerminalTexts, isTerminal]
  | cons c cs ih =>
    simpa [streamRawOutput, nonTerminalTexts, isTerminal] using ih

lemma nonTerminalTexts_claude (lines : List String) :
    ∀ (acc : String) (ending : LineEnding),
      nonTerminalTexts (streamClaudeCodeOutput acc lines ending) =
        scanAppend acc (deltaTexts lines) := by
  induction lines with
  | nil =>
    intro acc ending
    cases ending <;>
      simp [streamClaudeCodeOutput, endResponses, deltaTexts, scanAppend,
        nonTerminalTexts, isTerminal, ErrorResponse, ErrorResponsef]
  | cons line rest ih =>
    intro acc ending
    cases h : claudeAction line with
    | skip => simpa [streamClaudeCodeOutput, deltaTexts, h] using ih acc ending
    | delta t =>
      have ih2 := ih (acc ++ t) ending
      simp [streamClaudeCodeOutput, deltaTexts, scanAppend, h,
        nonTerminalTexts, isTerminal] at ih2 ⊢
      exact ih2
    | result =>
      simp [streamClaudeCodeOutput, deltaTexts, scanAppend, h,
        nonTerminalTexts, isTerminal]

lemma strAppend_assoc (a b c : String) : a ++ b ++ c = a ++ (b ++ c) := by
  apply String.ext
  simp [String.data_append, List.append_assoc]

lemma scanAppend_getLast (acc : String) (ds : List String) (h : ds ≠ []) :
    (scanAppend acc ds).getLast? = some (acc ++ joinAll ds) := by
  induction ds generalizing acc with
  | nil => exact absurd rfl h
  | cons d rest ih =>
    cases rest with
    | nil => simp [scanAppend, joinAll]
    | cons d2 rest2 =>
      have ih2 := ih (acc ++ d) (by simp)
      have hstep : (scanAppend acc (d :: d2 :: rest2)).getLast?
          = (scanAppend (acc ++ d) (d2 :: rest2)).getLast? := by
        show ((acc ++ d) :: scanAppend (acc ++ d) (d2 :: rest2)).getLast? = _
        rw [show scanAppend (acc ++ d) (d2 :: rest2) =
            ((acc ++ d) ++ d2) :: scanAppend ((acc ++ d) ++ d2) rest2 from rfl]
        exact List.getLast?_cons_cons
      rw [hstep, ih2, strAppend_assoc]
      rfl

/-! ### The gate invariant -/

lemma yzmaGate_inv (n : Nat) (s : YzmaGateState n) (h : YzmaGateReach n s) :
    YzmaGateInv n s := by
  induction h with
  | init p0 h0 =>
    constructor
    · intro i hi
      change p0 i = CallPhase.decoding at hi
      rw [h0 i] at hi
      exact absurd hi (by decide)
    · intro i j hi _
      change p0 i = CallPhase.decoding at hi
      rw [h0 i] at hi
      exact absurd hi (by decide)
  | step s t hs hstep ih =>
    obtain ⟨ih1, ih2⟩ := ih
    cases hstep with
    | acquire i hw hg =>
      constructor
      · intro k _
        rfl
      · intro k l hk hl
        change Function.update s.phase i CallPhase.decoding k = CallPhase.decoding at hk
        change Function.update s.phase i CallPhase.decoding l = CallPhase.decoding at hl
        by_cases hki : k = i
        · by_cases hli : l = i
          · rw [hki, hli]
          · exfalso
            rw [Function.update_noteq hli] at hl
            have := ih1 l hl
            rw [hg] at this
            exact absurd this (by decide)
        · exfalso
          rw [Function.update_noteq hki] at hk
          have := ih1 k hk
          rw [hg] at this
          exact absurd this (by decide)
    | cancelAcquire i hw =>
      constructor
      · intro k hk
        change Function.update s.phase i CallPhase.finished k = CallPhase.decoding at hk
        by_cases hki : k = i
        · subst hki
          rw [Function.update_same] at hk
          exact absurd hk (by decide)
        · rw [Function.update_noteq hki] at hk
          exact ih1 k hk
      · intro k l hk hl
        change Function.update s.phase i CallPhase.finished k = CallPhase.decoding at hk
        change Function.update s.phase i CallPhase.finished l = CallPhase.decoding at hl
        by_cases hki : k = i
        · subst hki
          rw [Function.update_same] at hk
          exact absurd hk (by decide)
        · by_cases hli : l = i
          · subst hli
            rw [Function.update_same] at hl
            exact absurd hl (by decide)
          · rw [Function.update_noteq hki] at hk
            rw [Function.update_noteq hli] at hl
            exact ih2 k l hk hl
    | release i hd =>
      constructor
      · intro k hk
        change Function.update s.phase i CallPhase.finished k = CallPhase.decoding at hk
        by_cases hki : k = i
        · subst hki
          rw [Function.update_same] at hk
          exact absurd hk (by decide)
        · rw [Function.update_noteq hki] at hk
          exact absurd (ih2 k i hk hd) hki
      · intro k l hk hl
        change Function.update s.phase i CallPhase.finished k = CallPhase.decoding at hk
        by_cases hki : k = i
        · subst hki
          rw [Function.update_same] at hk
          exact absurd hk (by decide)
        · rw [Function.update_noteq hki] at hk
          exact absurd (ih2 k i hk hd) hki

/-! ### Heap lemmas for the argument-vector model -/

lemma heapArr_append_lt (h : ArgHeap) (x : List String) (i : Nat)
    (hi : i < h.length) : heapArr (h ++ [x]) i = heapArr h i := by
  unfold heapArr
  rw [List.getD_eq_getElem?_getD, List.getD_eq_getElem?_getD, List.getElem?_append,
    if_pos hi]

lemma heapArr_append_self (h : ArgHeap) (x : List String) :
    heapArr (h ++ [x]) h.length = x := by
  unfold heapArr
  rw [List.getD_eq_getElem?_getD, List.getElem?_concat_length]
  rfl

lemma heapArr_set_ne (h : ArgHeap) (i j : Nat) (b : List String) (hij : i ≠ j) :
    heapArr (h.set i b) j = heapArr h j := by
  unfold heapArr
  rw [List.getD_eq_getElem?_getD, List.getD_eq_getElem?_getD, List.getElem?_set_ne hij]

lemma appendSlice_realloc (h : ArgHeap) (s : SliceRef) (xs : List String)
    (hx : ¬ (s.len + xs.length ≤ sliceCap h s)) :
    appendSlice h s xs = (h ++ [sliceView h s ++ xs], ⟨h.length, s.len + xs.length⟩) := by
  unfold appendSlice heapAlloc
  rw [if_neg hx]


/-- C9: `buildArgs` returns the configured base arguments first, then,
only for the claude-code engine with a non-empty system prompt, the
pair `--system-prompt`, prompt-value, then the built prompt as the
final element; and the engine's configured base argument vector (its
backing array on the heap) is unchanged, because the request-local
slice starts from a fresh `make`/`copy` and every `append` in the call
reallocates rather than writing into the configured backing array. -/
theorem buildArgs_frame_and_view (h : ArgHeap) (name : String) (cfg : SliceRef)
    (prompt sys : String) (hvalid : cfg.arr < h.length)
    (hcap : cfg.len ≤ sliceCap h cfg) :
    sliceView (buildArgs h name cfg prompt sys).1 (buildArgs h name cfg prompt sys).2 =
      sliceView h cfg ++
        (if name = "claude-code" ∧ sys ≠ "" then ["--system-prompt", sys] else []) ++
        [prompt] ∧
    heapArr (buildArgs h name cfg prompt sys).1 cfg.arr = heapArr h cfg.arr := by
  have hALen : cfg.len ≤ (heapArr h cfg.arr).length := hcap
  have htakeLen : ((heapArr h cfg.arr).take cfg.len).length = cfg.len := by
    rw [List.length_take]
    exact min_eq_left hALen
  have hH2 : copySlice (h ++ [List.replicate cfg.len ""]) ⟨h.length, cfg.len⟩ cfg =
      h ++ [(heapArr h cfg.arr).take cfg.len] := by
    unfold copySlice sliceView
    rw [heapArr_append_lt h _ cfg.arr hvalid, heapArr_append_self h _]
    simp [List.take_take, List.drop_eq_nil_of_le (le_of_eq (List.length_replicate cfg.len ""))]
  have hH2self : heapArr (h ++ [(heapArr h cfg.arr).take cfg.len]) h.length =
      (heapArr h cfg.arr).take cfg.len := heapArr_append_self h _
  have hH2frame : heapArr (h ++ [(heapArr h cfg.arr).take cfg.len]) cfg.arr =
      heapArr h cfg.arr := heapArr_append_lt h _ cfg.arr hvalid
  have hcap2 : sliceCap (h ++ [(heapArr h cfg.arr).take cfg.len]) ⟨h.length, cfg.len⟩ =
      cfg.len := by
    simp only [sliceCap]
    rw [hH2self, htakeLen]
  have hview2 : sliceView (h ++ [(heapArr h cfg.arr).take cfg.len]) ⟨h.length, cfg.len⟩ =
      (heapArr h cfg.arr).take cfg.len := by
    simp only [sliceView]
    rw [hH2self, List.take_take, min_self]
  by_cases hb : name = "claude-code" ∧ sys ≠ ""
  · have hno1 : ¬ ((⟨h.length, cfg.len⟩ : SliceRef).len +
        (["--system-prompt", sys] : List String).length ≤
        sliceCap (h ++ [(heapArr h cfg.arr).take cfg.len]) ⟨h.length, cfg.len⟩) := by
      rw [hcap2]
      simp
    have happ1 : appendSlice (h ++ [(heapArr h cfg.arr).take cfg.len])
        ⟨h.length, cfg.len⟩ ["--system-prompt", sys] =
        (h ++ [(heapArr h cfg.arr).take cfg.len] ++
          [(heapArr h cfg.arr).take cfg.len ++ ["--system-prompt", sys]],
          ⟨h.length + 1, cfg.len + 2⟩) := by
      rw [appendSlice_realloc _ _ _ hno1, hview2]
      simp
    have h3self : heapArr (h ++ [(heapArr h cfg.arr).take cfg.len] ++
        [(heapArr h cfg.arr).take cfg.len ++ ["--system-prompt", sys]]) (h.length + 1) =
        (heapArr h cfg.arr).take cfg.len ++ ["--system-prompt", sys] := by
      have hx := heapArr_append_self (h ++ [(heapArr h cfg.arr).take cfg.len])
        ((heapArr h cfg.arr).take cfg.len ++ ["--system-prompt", sys])
      simpa using hx
    have hB1len : ((heapArr h cfg.arr).take cfg.len ++
        ["--system-prompt", sys]).length = cfg.len + 2 := by
      simp [htakeLen]
    have hcap3 : sliceCap (h ++ [(heapArr h cfg.arr).take cfg.len] ++
        [(heapArr h cfg.arr).take cfg.len ++ ["--system-prompt", sys]])
        ⟨h.length + 1, cfg.len + 2⟩ = cfg.len + 2 := by
      simp only [sliceCap]
      rw [h3self, hB1len]
    have hview3 : sliceView (h ++ [(heapArr h cfg.arr).take cfg.len] ++
        [(heapArr h cfg.arr).take cfg.len ++ ["--system-prompt", sys]])
        ⟨h.length + 1, cfg.len + 2⟩ =
        (heapArr h cfg.arr).take cfg.len ++ ["--system-prompt", sys] := by
      simp only [sliceView]
      rw [h3self, ← hB1len, List.take_length]
    have hno2 : ¬ ((⟨h.length + 1, cfg.len + 2⟩ : SliceRef).len +
        ([prompt] : List String).length ≤
        sliceCap (h ++ [(heapArr h cfg.arr).take cfg.len] ++
          [(heapArr h cfg.arr).take cfg.len ++ ["--system-prompt", sys]])
          ⟨h.length + 1, cfg.len + 2⟩) := by
      rw [hcap3]
      simp
    have happ2 : appendSlice (h ++ [(heapArr h cfg.arr).take cfg.len] ++
        [(heapArr h cfg.arr).take cfg.len ++ ["--system-prompt", sys]])
        ⟨h.length + 1, cfg.len + 2⟩ [prompt] =
        (h ++ [(heapArr h cfg.arr).take cfg.len] ++
          [(heapArr h cfg.arr).take cfg.len ++ ["--system-prompt", sys]] ++
          [(heapArr h cfg.arr).take cfg.len ++ ["--system-prompt", sys] ++ [prompt]],
          ⟨h.length + 2, cfg.len + 3⟩) := by
      rw [appendSlice_realloc _ _ _ hno2, hview3]
      simp
    have key : buildArgs h name cfg prompt sys =
        (h ++ [(heapArr h cfg.arr).take cfg.len] ++
          [(heapArr h cfg.arr).take cfg.len ++ ["--system-prompt", sys]] ++
          [(heapArr h cfg.arr).take cfg.len ++ ["--system-prompt", sys] ++ [prompt]],
          ⟨h.length + 2, cfg.len + 3⟩) := by
      simp only [buildArgs, makeSlice, heapAlloc]
      rw [if_pos hb, hH2, happ1]
      exact happ2
    rw [key]
    constructor
    · simp only [sliceView]
      have hfinal : heapArr (h ++ [(heapArr h cfg.arr).take cfg.len] ++
          [(heapArr h cfg.arr).take cfg.len ++ ["--system-prompt", sys]] ++
          [(heapArr h cfg.arr).take cfg.len ++ ["--system-prompt", sys] ++ [prompt]])
          (h.length + 2) =
          (heapArr h cfg.arr).take cfg.len ++ ["--system-prompt", sys] ++ [prompt] := by
        have hx := heapArr_append_self
          (h ++ [(heapArr h cfg.arr).take cfg.len] ++
            [(heapArr h cfg.arr).take cfg.len ++ ["--system-prompt", sys]])
          ((heapArr h cfg.arr).take cfg.len ++ ["--system-prompt", sys] ++ [prompt])
        simpa using hx
      rw [hfinal]
      have hB2len : ((heapArr h cfg.arr).take cfg.len ++ ["--system-prompt", sys] ++
          [prompt]).length = cfg.len + 3 := by
        simp [htakeLen]
      rw [← hB2len, List.take_length, if_pos hb]
    · have hlt1 : cfg.arr < (h ++ [(heapArr h cfg.arr).take cfg.len] ++
          [(heapArr h cfg.arr).take cfg.len ++ ["--system-prompt", sys]]).length := by
        simp
        omega
      have hlt2 : cfg.arr < (h ++ [(heapArr h cfg.arr).take cfg.len]).length := by
        simp
        omega
      rw [heapArr_append_lt _ _ _ hlt1, heapArr_append_lt _ _ _ hlt2, hH2frame]
  · have hno1 : ¬ ((⟨h.length, cfg.len⟩ : SliceRef).len +
        ([prompt] : List String).length ≤
        sliceCap (h ++ [(heapArr h cfg.arr).take cfg.len]) ⟨h.length, cfg.len⟩) := by
      rw [hcap2]
      simp
    have happ1 : appendSlice (h ++ [(heapArr h cfg.arr).take cfg.len])
        ⟨h.length, cfg.len⟩ [prompt] =
        (h ++ [(heapArr h cfg.arr).take cfg.len] ++
          [(heapArr h cfg.arr).take cfg.len ++ [prompt]],
          ⟨h.length + 1, cfg.len + 1⟩) := by
      rw [appendSlice_realloc _ _ _ hno1, hview2]
      simp
    have key : buildArgs h name cfg prompt sys =
        (h ++ [(heapArr h cfg.arr).take cfg.len] ++
          [(heapArr h cfg.arr).take cfg.len ++ [prompt]],
          ⟨h.length + 1, cfg.len + 1⟩) := by
      simp only [buildArgs, makeSlice, heapAlloc]
      rw [if_neg hb, hH2]
      exact happ1
    rw [key]
    constructor
    · simp only [sliceView]
      have hfinal : heapArr (h ++ [(heapArr h cfg.arr).take cfg.len] ++
          [(heapArr h cfg.arr).take cfg.len ++ [prompt]]) (h.length + 1) =
          (heapArr h cfg.arr).take cfg.len ++ [prompt] := by
        have hx := heapArr_append_self (h ++ [(heapArr h cfg.arr).take cfg.len])
          ((heapArr h cfg.arr).take cfg.len ++ [prompt])
        simpa using hx
      rw [hfinal]
      have hlen1 : ((heapArr h cfg.arr).take cfg.len ++ [prompt]).length =
          cfg.len + 1 := by
        simp [htakeLen]
      rw [← hlen1, List.take_length, if_neg hb]
      simp [sliceView]
    · rw [heapArr_append_lt _ _ _ (by simp; omega :
        cfg.arr < (h ++ [(heapArr h cfg.arr).take cfg.len] : ArgHeap).length),
        hH2frame]



/-! ### Per-producer trace lemmas -/

lemma okTrace_terminalStream (e : TerminalCfg) (req : Request) (ps : ProcStream) :
    okTrace (terminalTranslateStream e req ps).2 = true := by
  unfold terminalTranslateStream
  by_cases hreq : req.text = ""
  · simp [hreq, okTrace]
  · simp only [if_neg hreq]
    cases ps with
    | pipeFail er => exact okTrace_singleton _
    | startFail er => exact okTrace_singleton _
    | run chunks re lines le =>
      by_cases hcl : e.name = "claude-code"
      · simpa [hcl] using okTrace_claude lines "" le
      · simpa [hcl] using okTrace_raw chunks re

lemma okTrace_yzmaStream (ini : Bool) (ie acq ge : Option String)
    (pieces : List String) (req : Request) (rs : List Response)
    (hok : (yzmaTranslateStream ini ie acq pieces ge req).2 = Except.ok rs) :
    okTrace rs = true := by
  unfold yzmaTranslateStream at hok
  cases hini : (if ini then none else ie) with
  | some e => rw [hini] at hok; cases hok
  | none =>
    rw [hini] at hok
    by_cases hreq : req.text = ""
    · simp [hreq] at hok
      rw [← hok]
      exact okTrace_singleton _
    · simp only [if_neg hreq] at hok
      cases hacq : acq with
      | some e =>
        rw [hacq] at hok
        simp at hok
        rw [← hok]
        exact okTrace_singleton _
      | none =>
        rw [hacq] at hok
        simp at hok
        rw [← hok]
        apply okTrace_append_nonterminal
        · intro r hr
          rcases List.mem_map.mp hr with ⟨p, _, rfl⟩
          exact isTerminal_text_chunk p
        · cases ge <;> exact okTrace_singleton _

lemma okTrace_ollamaStream (chunks : List OllamaChunk) (ge : Option String)
    (dl : Bool) (req : Request) (hwf : OllamaWellFormed chunks ge) :
    okTrace (ollamaTranslateStream chunks ge dl req).2 = true := by
  unfold ollamaTranslateStream
  by_cases hreq : req.text = ""
  · simp [hreq, okTrace]
  · simp only [if_neg hreq]
    cases hge : ge with
    | none =>
      simpa using okTrace_ollama_chunks chunks hwf.1
    | some e =>
      have hall : ∀ c ∈ chunks, c.done = false := hwf.2 (by simp [hge])
      simp only
      apply okTrace_append_nonterminal
      · intro r hr
        rcases List.mem_map.mp hr with ⟨c, hc, rfl⟩
        simp [isTerminal, hall c hc]
      · by_cases hdl : dl <;> simp [hdl, okTrace]

lemma errImpliesDone_terminalStream (e : TerminalCfg) (req : Request)
    (ps : ProcStream) : errImpliesDone (terminalTranslateStream e req ps).2 := by
  unfold terminalTranslateStream
  by_cases hreq : req.text = ""
  · intro r hr _
    simp [hreq] at hr
    subst hr
    rfl
  · simp only [if_neg hreq]
    cases ps with
    | pipeFail er => exact errImpliesDone_singleton_err _
    | startFail er => exact errImpliesDone_singleton_err _
    | run chunks re lines le =>
      by_cases hcl : e.name = "claude-code"
      · simpa [hcl] using errImpliesDone_claude lines "" le
      · simpa [hcl] using errImpliesDone_raw chunks re

lemma errImpliesDone_yzmaStream (ini : Bool) (ie acq ge : Option String)
    (pieces : List String) (req : Request) (rs : List Response)
    (hok : (yzmaTranslateStream ini ie acq pieces ge req).2 = Except.ok rs) :
    errImpliesDone rs := by
  unfold yzmaTranslateStream at hok
  cases hini : (if ini then none else ie) with
  | some e => rw [hini] at hok; cases hok
  | none =>
    rw [hini] at hok
    by_cases hreq : req.text = ""
    · simp [hreq] at hok
      rw [← hok]
      exact errImpliesDone_done
    · simp only [if_neg hreq] at hok
      cases hacq : acq with
      | some e =>
        rw [hacq] at hok
        simp at hok
        rw [← hok]
        exact errImpliesDone_singleton_err _
      | none =>
        rw [hacq] at hok
        simp at hok
        rw [← hok]
        apply errImpliesDone_append _ _ (errImpliesDone_chunkmap pieces)
        cases ge
        · exact errImpliesDone_done
        · exact errImpliesDone_singleton_err _

lemma errImpliesDone_ollamaStream (chunks : List OllamaChunk) (ge : Option String)
    (dl : Bool) (req : Request) :
    errImpliesDone (ollamaTranslateStream chunks ge dl req).2 := by
  unfold ollamaTranslateStream
  by_cases hreq : req.text = ""
  · intro r hr _
    simp [hreq] at hr
    subst hr
    rfl
  · simp only [if_neg hreq]
    apply errImpliesDone_append _ _ (errImpliesDone_ollama_chunks chunks)
    cases ge with
    | none => intro r hr; simp at hr
    | some e =>
      by_cases hdl : dl <;>
        · intro r hr _
          simp [hdl] at hr
          subst hr
          rfl

lemma terminalTranslate_error_field (e : TerminalCfg) (proc : ProcOutcome)
    (req : Request) : (terminalTranslate e proc req).2.1.error = "" := by
  unfold terminalTranslate
  by_cases hreq : req.text = ""
  · simp [hreq]
  · simp only [if_neg hreq]
    cases proc.err with
    | none => rfl
    | some er => by_cases hd : proc.deadlineExceeded <;> simp [hd]

lemma yzmaTranslate_error_field (ini : Bool) (ie acq ge : Option String)
    (pieces : List String) (req : Request) :
    (yzmaTranslate ini ie acq pieces ge req).2.1.error = "" := by
  unfold yzmaTranslate
  by_cases hreq : req.text = ""
  · simp [hreq]
  · simp only [if_neg hreq]
    cases hini : (if ini then none else ie) with
    | some e => rfl
    | none =>
      cases acq with
      | some e => rfl
      | none =>
        cases ge with
        | none => rfl
        | some e => by_cases hp : joinAll pieces ≠ "" <;> simp [hp]

lemma ollamaTranslate_error_field (chunks : List OllamaChunk) (ge : Option String)
    (dl : Bool) (req : Request) :
    (ollamaTranslate chunks ge dl req).2.1.error = "" := by
  unfold ollamaTranslate
  by_cases hreq : req.text = ""
  · simp [hreq]
  · simp only [if_neg hreq]
    cases ge with
    | none => rfl
    | some e => by_cases hd : dl <;> simp [hd]

lemma empty_strAppend (s : String) : "" ++ s = s := by
  apply String.ext
  simp [String.data_append]

lemma joinAll_cons_ne_empty (p : String) (rest : List String) (hp : p ≠ "") :
    joinAll (p :: rest) ≠ "" := by
  intro hcon
  apply hp
  have hdata := congrArg String.data hcon
  rw [joinAll, String.data_append] at hdata
  rcases List.append_eq_nil.mp hdata with ⟨h1, _⟩
  exact String.ext h1

lemma getLast?_append_singleton {α : Type} (l : List α) (a : α) :
    (l ++ [a]).getLast? = some a := by
  exact List.getLast?_concat l

/-! ### Claim theorems -/

/-- C1 (amended): within one streaming call, once a response with
`done = true` or a non-empty error is emitted, nothing further is
emitted before the producer returns and closes the channel — proved
unconditionally for `TerminalEngine.TranslateStream` (both decoding
strategies, over every modelled process behaviour) and for
`Yzma.TranslateStream`; for `Ollama.TranslateStream` it holds provided
the server stream is well-formed (`done` flagged only on the last chunk
and no transport error after a `done` chunk), because the engine relays
the server's `done` flags verbatim. -/
theorem stream_after_terminal_nothing (e : TerminalCfg) (req : Request)
    (ps : ProcStream) (ini : Bool) (ie acq ge : Option String)
    (pieces : List String) (chunks : List OllamaChunk) (oge : Option String)
    (dl : Bool) (hwf : OllamaWellFormed chunks oge) :
    okTrace (terminalTranslateStream e req ps).2 = true ∧
    (∀ rs, (yzmaTranslateStream ini ie acq pieces ge req).2 = Except.ok rs →
      okTrace rs = true) ∧
    okTrace (ollamaTranslateStream chunks oge dl req).2 = true :=
  ⟨okTrace_terminalStream e req ps,
   fun rs hok => okTrace_yzmaStream ini ie acq ge pieces req rs hok,
   okTrace_ollamaStream chunks oge dl req hwf⟩

/-- Witness for C1 at concrete inputs. -/
theorem stream_after_terminal_nothing_witness :
    OllamaWellFormed [⟨"x", false⟩, ⟨"", true⟩] none ∧
    okTrace (terminalTranslateStream ⟨"codex", "codex", ["-p"]⟩
      ⟨"hi", "en", "ko", "t", ""⟩
      (ProcStream.run ["a", "b"] RawEnding.eof [] LineEnding.exhausted)).2 = true ∧
    okTrace (ollamaTranslateStream [⟨"x", false⟩, ⟨"", true⟩] none false
      ⟨"hi", "en", "ko", "t", ""⟩).2 = true :=
  ⟨by constructor <;> simp,
   (stream_after_terminal_nothing ⟨"codex", "codex", ["-p"]⟩ ⟨"hi", "en", "ko", "t", ""⟩
      (ProcStream.run ["a", "b"] RawEnding.eof [] LineEnding.exhausted)
      true none none none [] [⟨"x", false⟩, ⟨"", true⟩] none false
      (by constructor <;> simp)).1,
   (stream_after_terminal_nothing ⟨"codex", "codex", ["-p"]⟩ ⟨"hi", "en", "ko", "t", ""⟩
      (ProcStream.run ["a", "b"] RawEnding.eof [] LineEnding.exhausted)
      true none none none [] [⟨"x", false⟩, ⟨"", true⟩] none false
      (by constructor <;> simp)).2.2⟩

/-- C1 counterexample: `Ollama.TranslateStream` relays the server's
`done` flag, so a server stream that flags `done` on a non-final chunk
makes the engine send a further response after a `done = true`
response, refuting the claim as stated for `Ollama.TranslateStream`. -/
theorem ollama_relays_done_flag_counterexample :
    (ollamaTranslateStream [⟨"a", true⟩, ⟨"b", false⟩] none false
      ⟨"x", "", "", "", ""⟩).2 =
      [{ text := "a", done := true, error := "" },
       { text := "b", done := false, error := "" }] ∧
    okTrace (ollamaTranslateStream [⟨"a", true⟩, ⟨"b", false⟩] none false
      ⟨"x", "", "", "", ""⟩).2 = false := by
  constructor <;> rfl

/-- C2 (amended): empty input text yields exactly one terminal response
with empty text and no error without engaging the backend for
`TerminalEngine.Translate`/`TranslateStream`, `Yzma.Translate` and
`Ollama.Translate`/`TranslateStream`; for `Yzma.TranslateStream` the
call still yields the single terminal empty response without acquiring
the gate or decoding, but the model is initialized (loaded on first
use) before the empty-text check. -/
theorem empty_text_fast_path (e : TerminalCfg) (req : Request)
    (ps : ProcStream) (proc : ProcOutcome) (ie acq ge : Option String)
    (pieces : List String) (chunks : List OllamaChunk) (oge : Option String)
    (dl : Bool) (hreq : req.text = "") :
    terminalTranslate e proc req =
      ([], { text := "", done := true, error := "" }, none) ∧
    terminalTranslateStream e req ps =
      ([], [{ text := "", done := true, error := "" }]) ∧
    yzmaTranslate true ie acq pieces ge req =
      ([], { text := "", done := true, error := "" }, none) ∧
    yzmaTranslate false ie acq pieces ge req =
      ([], { text := "", done := true, error := "" }, none) ∧
    ollamaTranslate chunks oge dl req =
      ([], { text := "", done := true, error := "" }, none) ∧
    ollamaTranslateStream chunks oge dl req =
      ([], [{ text := "", done := true, error := "" }]) ∧
    yzmaTranslateStream false none acq pieces ge req =
      ([Effect.loadModel], Except.ok [{ text := "", done := true, error := "" }]) := by
  refine ⟨?_, ?_, ?_, ?_, ?_, ?_, ?_⟩ <;>
    simp [terminalTranslate, terminalTranslateStream, yzmaTranslate,
      yzmaTranslateStream, ollamaTranslate, ollamaTranslateStream, hreq]

/-- Witness for C2 at concrete inputs. -/
theorem empty_text_fast_path_witness :
    ((⟨"", "en", "ko", "t", ""⟩ : Request).text = "") ∧
    terminalTranslate ⟨"codex", "codex", ["-p"]⟩ ⟨"out", none, false⟩
      ⟨"", "en", "ko", "t", ""⟩ =
      ([], { text := "", done := true, error := "" }, none) :=
  ⟨rfl,
   (empty_text_fast_path ⟨"codex", "codex", ["-p"]⟩ ⟨"", "en", "ko", "t", ""⟩
      (ProcStream.run [] RawEnding.eof [] LineEnding.exhausted)
      ⟨"out", none, false⟩ none none none [] [] none false rfl).1⟩

/-- C2 counterexample: `Yzma.TranslateStream` calls `Initialize` before
the empty-text check, so on a fresh engine an empty-text streaming call
does load the model — the backend is engaged, refuting "without
invoking the backend (no model initialization)" as stated. -/
theorem yzma_stream_initializes_on_empty_counterexample :
    yzmaTranslateStream false none none [] none ⟨"", "", "", "", ""⟩ =
      ([Effect.loadModel], Except.ok [{ text := "", done := true, error := "" }]) ∧
    (yzmaTranslateStream false none none [] none ⟨"", "", "", "", ""⟩).1 ≠ [] := by
  constructor
  · rfl
  · intro hcon
    simp [yzmaTranslateStream] at hcon

/-- C3 (amended): the structured decoder accumulates cumulatively and
skips unusable lines, but the event schema is the claude-code one: fed
the lines `\x7b"type":"stream_event","event":\x7b"type":"content_block_delta",
"delta":\x7b"type":"text_delta","text":"a"\x7d\x7d\x7d`, a malformed line,
the same event with text `"b"`, and `\x7b"type":"result"\x7d`, it
yields non-terminal responses with cumulative text `"a"` then `"ab"`
followed by exactly one terminal response, the malformed line being
silently skipped with no effect on the accumulator. -/
theorem claude_stream_cumulative_decoding :
    streamClaudeCodeOutput ""
      ["\x7b\"type\":\"stream_event\",\"event\":\x7b\"type\":\"content_block_delta\",\"delta\":\x7b\"type\":\"text_delta\",\"text\":\"a\"\x7d\x7d\x7d",
       "this line is not valid JSON",
       "\x7b\"type\":\"stream_event\",\"event\":\x7b\"type\":\"content_block_delta\",\"delta\":\x7b\"type\":\"text_delta\",\"text\":\"b\"\x7d\x7d\x7d",
       "\x7b\"type\":\"result\"\x7d"]
      LineEnding.exhausted =
      [{ text := "a", done := false, error := "" },
       { text := "ab", done := false, error := "" },
       { text := "", done := true, error := "" }] := by
  rfl

/-- C3 counterexample: the exact lines the claim prescribes,
`\x7b"type":"delta","text":"a"\x7d` etc., are valid JSON but match no
handled event type (`stream_event`/`result`), so the decoder emits no
non-terminal response at all for them — only the terminal response from
the `result` line — refuting the claim as stated. -/
theorem claude_spec_lines_skipped_counterexample :
    streamClaudeCodeOutput ""
      ["\x7b\"type\":\"delta\",\"text\":\"a\"\x7d",
       "\x7b\"type\":\"delta\",\"text\":\"b\"\x7d",
       "\x7b\"type\":\"result\"\x7d"]
      LineEnding.exhausted =
      [{ text := "", done := true, error := "" }] ∧
    streamClaudeCodeOutput ""
      ["\x7b\"type\":\"delta\",\"text\":\"a\"\x7d",
       "\x7b\"type\":\"delta\",\"text\":\"b\"\x7d",
       "\x7b\"type\":\"result\"\x7d"]
      LineEnding.exhausted ≠
      [{ text := "a", done := false, error := "" },
       { text := "ab", done := false, error := "" },
       { text := "", done := true, error := "" }] := by
  constructor
  · rfl
  · decide

/-- C4 (amended): for the raw strategy, the blocking `Translate` text
equals the concatenation of the streamed non-terminal texts up to
whitespace trimming (the blocking path applies `strings.TrimSpace`,
the stream relays the bytes untrimmed); for the cumulative structured
strategy, the last non-terminal response text equals the concatenation
of the decoded text deltas — it does not in general equal the blocking
`Translate` text, since the blocking path returns the trimmed raw
stream-json output without structured decoding. -/
theorem stream_vs_blocking_text (e : TerminalCfg) (req : Request) (dl : Bool)
    (chunks : List String) (lines : List String) (ending : LineEnding)
    (h : req.text ≠ "") (hd : deltaTexts lines ≠ []) :
    (terminalTranslate e ⟨joinAll chunks, none, dl⟩ req).2.1.text =
      trimSpace (joinAll (nonTerminalTexts (streamRawOutput chunks RawEnding.eof))) ∧
    (nonTerminalTexts (streamClaudeCodeOutput "" lines ending)).getLast? =
      some (joinAll (deltaTexts lines)) := by
  constructor
  · rw [nonTerminalTexts_raw_eof]
    simp [terminalTranslate, h]
  · rw [nonTerminalTexts_claude, scanAppend_getLast _ _ hd, empty_strAppend]

/-- Witness for C4 at concrete inputs. -/
theorem stream_vs_blocking_text_witness :
    (("x" : String) ≠ "") ∧
    deltaTexts
      ["\x7b\"type\":\"stream_event\",\"event\":\x7b\"type\":\"content_block_delta\",\"delta\":\x7b\"type\":\"text_delta\",\"text\":\"a\"\x7d\x7d\x7d",
       "\x7b\"type\":\"result\"\x7d"] ≠ [] ∧
    (terminalTranslate ⟨"codex", "codex", ["-p"]⟩
      { output := joinAll ["he", "llo"], err := none, deadlineExceeded := false }
      ⟨"x", "", "", "", ""⟩).2.1.text =
      trimSpace (joinAll (nonTerminalTexts (streamRawOutput ["he", "llo"] RawEnding.eof))) :=
  ⟨by decide, by decide,
   (stream_vs_blocking_text ⟨"codex", "codex", ["-p"]⟩ ⟨"x", "", "", "", ""⟩ false
      ["he", "llo"]
      ["\x7b\"type\":\"stream_event\",\"event\":\x7b\"type\":\"content_block_delta\",\"delta\":\x7b\"type\":\"text_delta\",\"text\":\"a\"\x7d\x7d\x7d",
       "\x7b\"type\":\"result\"\x7d"]
      LineEnding.exhausted (by decide) (by decide)).1⟩

/-- C4 counterexample: with backend output `"hi\n"`, the concatenated
raw-stream texts are `"hi\n"` while the blocking `Translate` returns
the trimmed `"hi"`, so the two are not equal as the claim states; and
for the cumulative strategy the last non-terminal text (`"a"`) differs
from what the blocking call returns on the same stream-json output. -/
theorem raw_concat_vs_blocking_counterexample :
    joinAll (nonTerminalTexts (streamRawOutput ["hi\n"] RawEnding.eof)) = "hi\n" ∧
    (terminalTranslate ⟨"codex", "codex", ["-p"]⟩
      { output := "hi\n", err := none, deadlineExceeded := false }
      ⟨"x", "", "", "", ""⟩).2.1.text = "hi" ∧
    ("hi\n" : String) ≠ "hi" ∧
    (nonTerminalTexts (streamClaudeCodeOutput ""
      ["\x7b\"type\":\"stream_event\",\"event\":\x7b\"type\":\"content_block_delta\",\"delta\":\x7b\"type\":\"text_delta\",\"text\":\"a\"\x7d\x7d\x7d",
       "\x7b\"type\":\"result\"\x7d"] LineEnding.exhausted)).getLast? = some "a" ∧
    (terminalTranslate ⟨"claude-code", "claude", ["-p"]⟩
      { output := "\x7b\"type\":\"stream_event\",\"event\":\x7b\"type\":\"content_block_delta\",\"delta\":\x7b\"type\":\"text_delta\",\"text\":\"a\"\x7d\x7d\x7d\n\x7b\"type\":\"result\"\x7d",
        err := none, deadlineExceeded := false }
      ⟨"x", "", "", "", ""⟩).2.1.text ≠ "a" := by
  refine ⟨rfl, rfl, by decide, rfl, by decide⟩

/-- C5: the embedded engine's decode sections are mutually exclusive:
in every state reachable by the gate protocol of `Yzma.acquireModel`
(send on the capacity-one `inUse` channel, cancellation while waiting,
deferred release on every exit path), any two calls inside
`generateTokens` coincide, and the gate is held while anyone decodes —
so decodes are serialized into one global order. -/
theorem yzma_decode_mutual_exclusion (n : Nat) (s : YzmaGateState n)
    (i j : Fin n) (hreach : YzmaGateReach n s)
    (hi : s.phase i = CallPhase.decoding) (hj : s.phase j = CallPhase.decoding) :
    i = j ∧ s.gate = true :=
  ⟨(yzmaGate_inv n s hreach).2 i j hi hj, (yzmaGate_inv n s hreach).1 i hi⟩

/-- Witness for C5: a concrete reachable two-caller state with caller 0
decoding. -/
theorem yzma_decode_mutual_exclusion_witness :
    YzmaGateReach 2 ⟨true, Function.update (fun _ => CallPhase.waiting)
      (0 : Fin 2) CallPhase.decoding⟩ ∧
    ((0 : Fin 2) = 0 ∧
      (⟨true, Function.update (fun _ => CallPhase.waiting) (0 : Fin 2)
        CallPhase.decoding⟩ : YzmaGateState 2).gate = true) := by
  have hr : YzmaGateReach 2 ⟨true, Function.update (fun _ => CallPhase.waiting)
      (0 : Fin 2) CallPhase.decoding⟩ :=
    YzmaGateReach.step _ _ (YzmaGateReach.init _ (fun _ => rfl))
      (YzmaGateStep.acquire _ 0 rfl rfl)
  exact ⟨hr, yzma_decode_mutual_exclusion 2 _ 0 0 hr
    (by simp [Function.update_same]) (by simp [Function.update_same])⟩

/-- C6 (amended): blocking `TerminalEngine.Translate` on non-empty text
runs the process and returns the captured stdout with leading and
trailing whitespace trimmed as a single `done = true` response; a
deadline excess is reported as the timeout error rather than the
generic process error; any other failure yields the process error. -/
theorem terminal_translate_blocking_behaviour (e : TerminalCfg) (req : Request)
    (out er : String) (dl : Bool) (h : req.text ≠ "") :
    terminalTranslate e { output := out, err := none, deadlineExceeded := dl } req =
      ([Effect.spawnProcess],
        { text := trimSpace out, done := true, error := "" }, none) ∧
    terminalTranslate e { output := out, err := some er, deadlineExceeded := true } req =
      ([Effect.spawnProcess], { text := "", done := false, error := "" },
        some "translation timed out") ∧
    terminalTranslate e { output := out, err := some er, deadlineExceeded := false } req =
      ([Effect.spawnProcess], { text := "", done := false, error := "" },
        some ("terminal agent error: " ++ er)) := by
  refine ⟨?_, ?_, ?_⟩ <;> simp [terminalTranslate, h]

/-- Witness for C6 at concrete inputs. -/
theorem terminal_translate_blocking_behaviour_witness :
    (("hi" : String) ≠ "") ∧
    terminalTranslate ⟨"codex", "codex", ["-p"]⟩
      { output := " out\n", err := none, deadlineExceeded := false }
      ⟨"hi", "", "", "", ""⟩ =
      ([Effect.spawnProcess], { text := trimSpace " out\n", done := true, error := "" },
        none) :=
  ⟨by decide,
   (terminal_translate_blocking_behaviour ⟨"codex", "codex", ["-p"]⟩
      ⟨"hi", "", "", "", ""⟩ " out\n" "boom" false (by decide)).1⟩

/-- C6 counterexample: the code trims leading whitespace as well
(`strings.TrimSpace`), so on stdout `" hi\n"` the returned text is
`"hi"`, not the claim's "output with trailing whitespace trimmed"
(`" hi"`). -/
theorem terminal_translate_trims_leading_counterexample :
    (terminalTranslate ⟨"codex", "codex", ["-p"]⟩
      { output := " hi\n", err := none, deadlineExceeded := false }
      ⟨"x", "", "", "", ""⟩).2.1.text = "hi" ∧
    specTrimTrailing " hi\n" = " hi" ∧
    (terminalTranslate ⟨"codex", "codex", ["-p"]⟩
      { output := " hi\n", err := none, deadlineExceeded := false }
      ⟨"x", "", "", "", ""⟩).2.1.text ≠ specTrimTrailing " hi\n" := by
  refine ⟨rfl, rfl, by decide⟩

/-- C7: for the process-agent engine, a process running past the
deadline yields the timeout-flavoured error while an immediate failure
(spawn failure, or non-zero exit before the deadline) yields the
process-error-flavoured one, both in blocking and streaming mode, and
the two error texts are distinguishable for every underlying error
message. -/
theorem timeout_vs_process_error_distinguishable (e : TerminalCfg)
    (req : Request) (out er es : String) (chunks : List String)
    (h : req.text ≠ "") (hn : e.name ≠ "claude-code") :
    (terminalTranslate e ⟨out, some er, true⟩ req).2.2 =
      some "translation timed out" ∧
    (terminalTranslate e ⟨out, some er, false⟩ req).2.2 =
      some ("terminal agent error: " ++ er) ∧
    "terminal agent error: " ++ er ≠ "translation timed out" ∧
    (terminalTranslateStream e req
      (ProcStream.run chunks RawEnding.cancelled [] LineEnding.cancelled)).2.getLast? =
      some (ErrorResponse "translation timed out") ∧
    (terminalTranslateStream e req (ProcStream.startFail es)).2 =
      [ErrorResponsef ("failed to start command: " ++ es)] ∧
    "failed to start command: " ++ es ≠ "translation timed out" := by
  refine ⟨by simp [terminalTranslate, h], by simp [terminalTranslate, h], ?_, ?_, ?_, ?_⟩
  · intro heq
    have hlen := congrArg String.length heq
    rw [String.length_append] at hlen
    have h1 : ("terminal agent error: " : String).length = 22 := by decide
    have h2 : ("translation timed out" : String).length = 21 := by decide
    omega
  · simp only [terminalTranslateStream, if_neg h, if_neg hn, streamRawOutput]
    exact getLast?_append_singleton _ _
  · simp [terminalTranslateStream, h]
  · intro heq
    have hlen := congrArg String.length heq
    rw [String.length_append] at hlen
    have h1 : ("failed to start command: " : String).length = 25 := by decide
    have h2 : ("translation timed out" : String).length = 21 := by decide
    omega

/-- Witness for C7 at concrete inputs. -/
theorem timeout_vs_process_error_distinguishable_witness :
    (("hi" : String) ≠ "") ∧ (("codex" : String) ≠ "claude-code") ∧
    (terminalTranslate ⟨"codex", "codex", ["-p"]⟩
      { output := "", err := some "signal: killed", deadlineExceeded := true }
      ⟨"hi", "", "", "", ""⟩).2.2 = some "translation timed out" :=
  ⟨by decide, by decide,
   (timeout_vs_process_error_distinguishable ⟨"codex", "codex", ["-p"]⟩
      ⟨"hi", "", "", "", ""⟩ "" "signal: killed" "exec not found" []
      (by decide) (by decide)).1⟩

/-- C8: if the embedded engine's decode fails after `generateTokens`
delivered some (necessarily non-empty) pieces, `Yzma.Translate` returns
the accumulated partial text in a `done = true` response together with
the error; if no pieces were delivered it returns the zero response
together with the error. -/
theorem yzma_partial_failure_policy (pieces : List String) (er : String)
    (req : Request) (h : req.text ≠ "") (hall : ∀ p ∈ pieces, p ≠ "") :
    (pieces ≠ [] →
      yzmaTranslate true none none pieces (some er) req =
        ([Effect.acquireGate, Effect.decode],
          { text := joinAll pieces, done := true, error := "" },
          some ("yzma error: " ++ er))) ∧
    (pieces = [] →
      yzmaTranslate true none none pieces (some er) req =
        ([Effect.acquireGate, Effect.decode],
          { text := "", done := false, error := "" },
          some ("yzma error: " ++ er))) := by
  constructor
  · intro hne
    have hjoin : joinAll pieces ≠ "" := by
      cases pieces with
      | nil => exact absurd rfl hne
      | cons p rest => exact joinAll_cons_ne_empty p rest (hall p (by simp))
    simp [yzmaTranslate, h, hjoin]
  · intro hnil
    subst hnil
    simp [yzmaTranslate, h, joinAll]

/-- Witness for C8 at concrete inputs. -/
theorem yzma_partial_failure_policy_witness :
    (("hi" : String) ≠ "") ∧ (∀ p ∈ ["ab", "c"], p ≠ "") ∧ (["ab", "c"] ≠ []) ∧
    yzmaTranslate true none none ["ab", "c"] (some "decode failed")
      ⟨"hi", "", "", "", ""⟩ =
      ([Effect.acquireGate, Effect.decode],
        { text := joinAll ["ab", "c"], done := true, error := "" },
        some ("yzma error: " ++ "decode failed")) :=
  ⟨by decide, by decide, by decide,
   (yzma_partial_failure_policy ["ab", "c"] "decode failed" ⟨"hi", "", "", "", ""⟩
      (by decide) (by decide)).1 (by decide)⟩

/-- C10: every response any engine operation emits with a non-empty
error field also has `done = true`: streaming error emissions all go
through `ErrorResponse`/`ErrorResponsef`, which set `done`, and the
blocking operations never populate the response's error field at all
(they return the error separately), so a caller watching only the
`done` flag still observes error responses as terminal. -/
theorem error_responses_are_done (e : TerminalCfg) (req : Request)
    (ps : ProcStream) (ini : Bool) (ie acq ge : Option String)
    (pieces : List String) (chunks : List OllamaChunk) (oge : Option String)
    (dl : Bool) (proc : ProcOutcome) :
    errImpliesDone (terminalTranslateStream e req ps).2 ∧
    (∀ rs, (yzmaTranslateStream ini ie acq pieces ge req).2 = Except.ok rs →
      errImpliesDone rs) ∧
    errImpliesDone (ollamaTranslateStream chunks oge dl req).2 ∧
    (terminalTranslate e proc req).2.1.error = "" ∧
    (yzmaTranslate ini ie acq pieces ge req).2.1.error = "" ∧
    (ollamaTranslate chunks oge dl req).2.1.error = "" :=
  ⟨errImpliesDone_terminalStream e req ps,
   fun rs hok => errImpliesDone_yzmaStream ini ie acq ge pieces req rs hok,
   errImpliesDone_ollamaStream chunks oge dl req,
   terminalTranslate_error_field e proc req,
   yzmaTranslate_error_field ini ie acq ge pieces req,
   ollamaTranslate_error_field chunks oge dl req⟩

/-- Witness for C10 at concrete inputs. -/
theorem error_responses_are_done_witness :
    errImpliesDone (terminalTranslateStream ⟨"codex", "codex", ["-p"]⟩
      ⟨"hi", "", "", "", ""⟩
      (ProcStream.run ["a"] (RawEnding.readErr "pipe broke") []
        LineEnding.exhausted)).2 :=
  (error_responses_are_done ⟨"codex", "codex", ["-p"]⟩ ⟨"hi", "", "", "", ""⟩
    (ProcStream.run ["a"] (RawEnding.readErr "pipe broke") [] LineEnding.exhausted)
    true none none none [] [] none false ⟨"", none, false⟩).1

/-- Witness for C9 at concrete inputs: a one-array heap holding the
configured base argument vector `["-p"]`. -/
theorem buildArgs_frame_and_view_witness :
    ((⟨0, 1⟩ : SliceRef).arr < ([["-p"]] : ArgHeap).length) ∧
    ((⟨0, 1⟩ : SliceRef).len ≤ sliceCap [["-p"]] ⟨0, 1⟩) ∧
    (sliceView (buildArgs [["-p"]] "claude-code" ⟨0, 1⟩ "PROMPT" "SYS").1
        (buildArgs [["-p"]] "claude-code" ⟨0, 1⟩ "PROMPT" "SYS").2 =
      sliceView [["-p"]] ⟨0, 1⟩ ++
        (if ("claude-code" : String) = "claude-code" ∧ ("SYS" : String) ≠ "" then
          ["--system-prompt", "SYS"] else []) ++ ["PROMPT"] ∧
     heapArr (buildArgs [["-p"]] "claude-code" ⟨0, 1⟩ "PROMPT" "SYS").1 0 =
      heapArr [["-p"]] 0) :=
  ⟨by decide, by decide,
   buildArgs_frame_and_view [["-p"]] "claude-code" ⟨0, 1⟩ "PROMPT" "SYS"
     (by decide) (by decide)⟩

end Tons
